import Mathlib

/-!
Verification development for the Line Clear (Tetris-guideline) game engine
in `line_clear_engine.py`.

Modelling conventions (shallow embedding):
* Python strings are modelled as `List Char` (`PyStr`); Python's substring
  test `a in b` is `pyIn`.
* Piece types and facings are closed enumerations (the engine only ever
  stores the seven type letters and the four facing letters in these fields).
* Grid cells are `Nat` values (0 empty, 1-7 locked, 11-17 ghost), the grid is
  a list of 22 rows of 10 cells, row 0 at the bottom, exactly as
  `_create_grid` builds it.  Coordinates are `Int` pairs `(col, row)` as in
  the Python tuples.
* Writes to a grid cell (`_update_grid_position`) are modelled by `setCell`;
  every engine call site first checks `0 <= col < 10` and `0 <= row < 22`
  (or writes a footprint that is inside the grid), so `setCell` is defined
  as the identity on out-of-range coordinates.
* A Python runtime error (unbound local, `TypeError` from `join`) is
  modelled by `Option`/`none`.
* `random.randint(0, len(bag) - 1)` is modelled by an arbitrary natural
  `c` taken modulo `bag.length`: every index the library can return is of
  this form, and every such value is a possible return.
-/

namespace LineClear

abbrev PyStr := List Char

/-- Python's substring test `needle in hay` restricted to what it needs:
`leadsWith n l` holds when `n` is an initial segment of `l`. -/
def leadsWith : PyStr → PyStr → Bool
  | [], _ => true
  | _ :: _, [] => false
  | a :: as, b :: bs => a == b && leadsWith as bs

/-- Python's `needle in hay` on strings: `needle` occurs contiguously in
`hay` (the empty string occurs in every string). -/
def pyIn (needle : PyStr) : PyStr → Bool
  | [] => needle.isEmpty
  | h :: t => leadsWith needle (h :: t) || pyIn needle t

/-- The seven tetromino types, keys of `_grid_piece_map`. -/
inductive PieceType
  | O | I | T | L | J | S | Z
deriving DecidableEq, Repr

/-- The four facings `"N" "E" "S" "W"` stored in `current_piece["facing"]`. -/
inductive Facing
  | N | E | S | W
deriving DecidableEq, Repr

/-- `_grid_piece_map`. -/
def gridPieceMap : PieceType → Nat
  | .O => 1
  | .I => 2
  | .T => 3
  | .L => 4
  | .J => 5
  | .S => 6
  | .Z => 7

/-- `current_piece`: type, facing and the four `(col, row)` block tuples. -/
structure Piece where
  type : PieceType
  facing : Facing
  block1 : Int × Int
  block2 : Int × Int
  block3 : Int × Int
  block4 : Int × Int
deriving DecidableEq, Repr

/-- `[self.current_piece["block" + str(i)] for i in range(1, 5)]`. -/
def blocksOf (p : Piece) : List (Int × Int) :=
  [p.block1, p.block2, p.block3, p.block4]

/-- The grid: a list of rows, each a list of cells; row 0 is the bottom. -/
abbrev Grid := List (List Nat)

/-- Cell read `self.grid[row][col]` at natural indices. -/
def getCellN (g : Grid) (row col : Nat) : Nat :=
  (g.getD row []).getD col 0

/-- Cell read at the engine's `Int` coordinates (always used after the
engine's own `in range(...)` bounds checks, so negative values never reach
an actual read). -/
def getCell (g : Grid) (row col : Int) : Nat :=
  getCellN g row.toNat col.toNat

/-- Cell write at natural indices (`List.set` is the identity when the
index is out of range, matching the fact that the engine only ever writes
in-range cells). -/
def setCellN (g : Grid) (row col : Nat) (v : Nat) : Grid :=
  g.set row ((g.getD row []).set col v)

/-- `_update_grid_position`: write value `v` at `(row, col)`.  The engine
only calls this on coordinates inside the grid; out-of-range coordinates
leave the grid unchanged in the model. -/
def setCell (g : Grid) (row col : Int) (v : Nat) : Grid :=
  if 0 ≤ row ∧ 0 ≤ col then setCellN g row.toNat col.toNat v else g

/-- Write the value `v` at every `(col, row)` coordinate of `bs`, in order
(the loops of `_update_grid_with_current_piece`). -/
def placeBlocks (g : Grid) (bs : List (Int × Int)) (v : Nat) : Grid :=
  bs.foldl (fun g b => setCell g b.2 b.1 v) g

/-- `_update_grid_with_current_piece`: erase the old piece's footprint
(value 0 / `"E"`), then write the new piece's footprint with its type
value. -/
def update_grid_with_current_piece (g : Grid) (old : Option Piece)
    (p : Piece) : Grid :=
  let g1 := match old with
    | none => g
    | some op => placeBlocks g (blocksOf op) 0
  placeBlocks g1 (blocksOf p) (gridPieceMap p.type)

/-- `stats`. -/
structure Stats where
  score : Int
  lines : Int
  level : Int
  goal : Int
deriving DecidableEq, Repr

/-- `_game_options`. -/
structure GameOptions where
  hold_queue : Bool
  ghost_piece : Bool
  lock_down : PyStr
deriving DecidableEq, Repr

/-- The engine state (the attributes of `LineClearEngine` that the
simulation logic reads and writes). -/
structure Engine where
  grid : Grid
  next_queue : List PieceType
  hold_queue : Option PieceType
  current_piece : Piece
  stats : Stats
  game_running : Bool
  game_paused : Bool
  hold_available : Bool
  bag : List PieceType
  fallspeed : Int
  game_options : GameOptions
deriving DecidableEq, Repr

/-- Translate all four blocks of a piece by `(cd, rd)` (the loop in the
`direction in "LRD"` branch of `move_current_piece`). -/
def translatePiece (p : Piece) (cd rd : Int) : Piece :=
  { p with
    block1 := (p.block1.1 + cd, p.block1.2 + rd)
    block2 := (p.block2.1 + cd, p.block2.2 + rd)
    block3 := (p.block3.1 + cd, p.block3.2 + rd)
    block4 := (p.block4.1 + cd, p.block4.2 + rd) }

/-- The `(col_delta, row_delta)` pair set by the `if direction ==` chain of
`_check_movement_possible`; `none` models the fact that for any other
direction the deltas are never assigned, so their first use raises
`UnboundLocalError`. -/
def movementDelta (direction : PyStr) : Option (Int × Int) :=
  if direction = ['D'] then some (0, -1)
  else if direction = ['L'] then some (-1, 0)
  else if direction = ['R'] then some (1, 0)
  else none

/-- `_check_movement_possible`: every block, translated by the direction's
delta, must be inside `range(10)` x `range(22)` and must not land on a cell
holding a locked value 1-7 unless that cell is one of the piece's own
current block coordinates.  `none` models the unbound-delta exception. -/
def check_movement_possible (g : Grid) (p : Piece) (direction : PyStr) :
    Option Bool :=
  let blocks := blocksOf p
  (movementDelta direction).map fun d =>
    blocks.all fun b =>
      let nc := b.1 + d.1
      let nr := b.2 + d.2
      decide (0 ≤ nc) && decide (nc < 10) && decide (0 ≤ nr) &&
        decide (nr < 22) &&
        (!(decide (1 ≤ getCell g nr nc) && decide (getCell g nr nc ≤ 7)) ||
          decide ((nc, nr) ∈ blocks))

/-- `centre_point_map` lookup followed by reading that block (the `"O"` key
is never reached: `_super_rotation` returns before the lookup). -/
def centreBlock (p : Piece) : Int × Int :=
  match p.type with
  | .I => p.block2
  | .S => p.block4
  | _ => p.block3

/-- `rotation_map`: for each facing the pair
(anti-clockwise target, clockwise target). -/
def rotationPair : Facing → Facing × Facing
  | .N => (.W, .E)
  | .E => (.N, .S)
  | .S => (.E, .W)
  | .W => (.S, .N)

/-- `_calculate_block_rotation`: rotate `coords` 90 degrees about `centre`
with the matrix `[[0,1],[-1,0]]` (clockwise) or `[[0,-1],[1,0]]`. -/
def calculate_block_rotation (coords centre : Int × Int) (clockwise : Bool) :
    Int × Int :=
  let rel := (coords.1 - centre.1, coords.2 - centre.2)
  let m : (Int × Int) × (Int × Int) :=
    if clockwise then ((0, 1), (-1, 0)) else ((0, -1), (1, 0))
  (centre.1 + (m.1.1 * rel.1 + m.1.2 * rel.2),
   centre.2 + (m.2.1 * rel.1 + m.2.2 * rel.2))

/-- The `offsets` table of `_check_offsets` (the `"I"` table is distinct;
the `"L" "S" "T" "Z" "J"` tables are identical in the source; `"O"` never
reaches the lookup and entries outside 1-5 are never used). -/
def offsetTable (t : PieceType) (i : Nat) (f : Facing) : Int × Int :=
  match t with
  | .I =>
    match i, f with
    | 1, .N => (0, 0)  | 1, .E => (-1, 0) | 1, .S => (-1, 1) | 1, .W => (0, 1)
    | 2, .N => (-1, 0) | 2, .E => (0, 0)  | 2, .S => (1, 1)  | 2, .W => (0, 1)
    | 3, .N => (2, 0)  | 3, .E => (0, 0)  | 3, .S => (-2, 1) | 3, .W => (0, 1)
    | 4, .N => (-1, 0) | 4, .E => (0, 1)  | 4, .S => (1, 0)  | 4, .W => (0, -1)
    | 5, .N => (2, 0)  | 5, .E => (0, -2) | 5, .S => (-2, 0) | 5, .W => (0, 1)
    | _, _ => (0, 0)
  | _ =>
    match i, f with
    | 1, _ => (0, 0)
    | 2, .N => (0, 0) | 2, .E => (1, 0)  | 2, .S => (0, 0) | 2, .W => (-1, 0)
    | 3, .N => (0, 0) | 3, .E => (1, -1) | 3, .S => (0, 0) | 3, .W => (-1, -1)
    | 4, .N => (0, 0) | 4, .E => (0, 2)  | 4, .S => (0, 0) | 4, .W => (0, 2)
    | 5, .N => (0, 0) | 5, .E => (1, 2)  | 5, .S => (0, 0) | 5, .W => (-1, 2)
    | _, _ => (0, 0)

/-- `offset = (offset_1[0] - offset_2[0], offset_1[1] - offset_2[1])` for
entry `i`. -/
def kickOffset (t : PieceType) (i : Nat) (oldF newF : Facing) : Int × Int :=
  let o1 := offsetTable t i oldF
  let o2 := offsetTable t i newF
  (o1.1 - o2.1, o1.2 - o2.2)

/-- `_check_piece_can_move_by_offset`: all rotated candidates, shifted by
`offset`, must be in the grid, and any occupied (1-7) target cell must be
one of the current piece's own block coordinates. -/
def check_piece_can_move_by_offset (g : Grid) (p : Piece)
    (block_coords : List (Int × Int)) (offset : Int × Int) : Bool :=
  block_coords.all fun b =>
    let nc := b.1 + offset.1
    let nr := b.2 + offset.2
    decide (0 ≤ nc) && decide (nc < 10) && decide (0 ≤ nr) &&
      decide (nr < 22) &&
      (!(decide (1 ≤ getCell g nr nc) && decide (getCell g nr nc ≤ 7)) ||
        decide ((nc, nr) ∈ blocksOf p))

/-- `_rotate_current_piece`: overwrite the four blocks with
`block_coords[i-1] + offset`.  Note: the source never updates
`current_piece["facing"]` here (or anywhere else in the rotation path). -/
def rotate_current_piece (p : Piece) (block_coords : List (Int × Int))
    (offset : Int × Int) : Piece :=
  let at' := fun i => block_coords.getD i ((0 : Int), (0 : Int))
  { p with
    block1 := ((at' 0).1 + offset.1, (at' 0).2 + offset.2)
    block2 := ((at' 1).1 + offset.1, (at' 1).2 + offset.2)
    block3 := ((at' 2).1 + offset.1, (at' 2).2 + offset.2)
    block4 := ((at' 3).1 + offset.1, (at' 3).2 + offset.2) }

/-- `_check_offsets`: try entries 1..5 in order; the first legal offset is
applied via `_rotate_current_piece`; otherwise nothing changes. -/
def check_offsets (e : Engine) (t : PieceType)
    (block_coords : List (Int × Int)) (oldF newF : Facing) : Engine :=
  match (List.range' 1 5).find?
      (fun i => check_piece_can_move_by_offset e.grid e.current_piece
        block_coords (kickOffset t i oldF newF)) with
  | some i =>
    let p' := rotate_current_piece e.current_piece block_coords
      (kickOffset t i oldF newF)
    { e with current_piece := p' }
  | none => e

/-- `_super_rotation`: a rotation of the `"O"` piece returns immediately;
otherwise rotate every block about the centre block and hand the candidate
coordinates to `_check_offsets`. -/
def super_rotation (e : Engine) (clockwise : Bool) : Engine :=
  if e.current_piece.type = PieceType.O then e
  else
    let centre := centreBlock e.current_piece
    let block_coords := (blocksOf e.current_piece).map
      (fun b => calculate_block_rotation b centre clockwise)
    let pair := rotationPair e.current_piece.facing
    let newF := if clockwise then pair.2 else pair.1
    check_offsets e e.current_piece.type block_coords
      e.current_piece.facing newF

/-- `move_current_piece`: dispatch on the direction string (`in "LRD"` is
Python substring containment), check, translate, rotate; afterwards update
the grid footprint when the piece changed.  `none` models the propagated
exception from `_check_movement_possible`'s unbound deltas. -/
def move_current_piece (e : Engine) (direction : PyStr) : Option Engine :=
  let old := e.current_piece
  let step : Option Engine :=
    if pyIn direction ['L', 'R', 'D'] then
      match check_movement_possible e.grid e.current_piece direction with
      | none => none
      | some true =>
        let rd : Int := if direction = ['D'] then -1 else 0
        let cd : Int :=
          if direction = ['L'] then -1
          else if direction = ['R'] then 1 else 0
        some { e with current_piece := translatePiece e.current_piece cd rd }
      | some false => some e
    else if direction = ['C'] then some (super_rotation e true)
    else if direction = ['A'] then some (super_rotation e false)
    else some e
  match step with
  | none => none
  | some e2 =>
    some (if old = e2.current_piece then e2
      else { e2 with grid :=
        update_grid_with_current_piece e2.grid (some old) e2.current_piece })

/-- A row passes `_pattern_match`'s inner loop iff every one of its cells
is in `range(1, 8)`. -/
def rowFull (row : List Nat) : Bool :=
  row.all fun cell => decide (1 ≤ cell) && decide (cell ≤ 7)

/-- The `rows_to_clear` list built by `_pattern_match`: all indices
`i in range(len(grid))` whose row is full, in ascending order. -/
def rows_to_clear (g : Grid) : List Nat :=
  (List.range g.length).filter fun i => rowFull (g.getD i [])

/-- `_clear_rows`: for each listed index in turn, `grid.pop(row)` then
append a fresh empty row at the top.  (The pops use the current, already
shifted grid.) -/
def clear_rows (g : Grid) (rows : List Nat) : Grid :=
  rows.foldl (fun g r => g.eraseIdx r ++ [List.replicate 10 0]) g

/-- `_pattern_match`: collect the full rows, clear them, and add the count
to the lines stat. -/
def pattern_match (e : Engine) : Engine :=
  let rows := rows_to_clear e.grid
  { e with
    grid := clear_rows e.grid rows
    stats := { e.stats with lines := e.stats.lines + rows.length } }

/-- Python's `round` (banker's rounding, half to even) on an exact rational.
`_set_fall_speed` computes the fall-speed expression in floating point; the
model computes the same expression exactly.  On the values the claims
mention the two agree. -/
def pythonRound (q : ℚ) : ℤ :=
  let f := ⌊q⌋
  let r := q - (f : ℚ)
  if r < 1 / 2 then f
  else if 1 / 2 < r then f + 1
  else if f % 2 = 0 then f else f + 1

/-- `_set_fall_speed`:
`round(((0.8 - ((level - 1) * 0.007)) ** (level - 1)) * 1000)`. -/
def set_fall_speed (level : ℤ) : ℤ :=
  pythonRound ((((4 : ℚ) / 5 - ((level : ℚ) - 1) * (7 / 1000)) ^
    (level - 1)) * 1000)

/-- The body of the block loop of `_check_game_overs`: the accumulator is
the `(game_over, below_sky, above_sky)` flag triple and the four branches
are the `if`/`elif`/`elif`/`else` of the source. -/
def gameOverStep (acc : Bool × Bool × Bool) (b : Int × Int) :
    Bool × Bool × Bool :=
  if b.2 = 20 ∧ 4 ≤ b.1 ∧ b.1 < 8 then (true, acc.2.1, acc.2.2)
  else if b.2 = 21 ∧ 4 ≤ b.1 ∧ b.1 < 7 then (true, acc.2.1, acc.2.2)
  else if b.2 < 20 then (acc.1, true, acc.2.2)
  else (acc.1, acc.2.1, true)

/-- `_check_game_overs` translated literally: one pass over the four blocks
maintaining the `(game_over, below_sky, above_sky)` flags, then the
`above_sky and not below_sky` test; on game over `game_running` is set to
`False`, otherwise it is left alone.  Returns the new `game_running`. -/
def check_game_overs (p : Piece) (running : Bool) : Bool :=
  let r := (blocksOf p).foldl gameOverStep (false, false, false)
  let game_over := r.1 || (r.2.2 && !r.2.1)
  if game_over then false else running

/-- `_completion_phase`: level up (level, goal, fall speed) when the goal
has been reached, then run the game-over check. -/
def completion_phase (e : Engine) : Engine :=
  let e1 :=
    if e.stats.goal ≤ e.stats.lines then
      let lvl := e.stats.level + 1
      { e with
        stats := { e.stats with level := lvl, goal := e.stats.goal + lvl * 5 }
        fallspeed := set_fall_speed lvl }
    else e
  { e1 with game_running := check_game_overs e1.current_piece e1.game_running }

/-- `_lock_phase` after the piece has locked: re-enable hold, pattern
match, completion; the source then calls `_generation_phase()` iff
`game_running` is still true.  Generation draws from the randomizer, so the
model returns the state handed to generation together with the boolean
"the generation phase is entered". -/
def lock_phase (e : Engine) : Engine × Bool :=
  let e1 := pattern_match { e with hold_available := true }
  let e2 := completion_phase e1
  (e2, e2.game_running)

/-- The randomizer state used by `_generation_phase` when drawing from the
bag: the next queue and the bag. -/
structure GenState where
  next_queue : List PieceType
  bag : List PieceType
deriving DecidableEq, Repr

/-- The full 7-type list `["O", "I", "T", "L", "J", "S", "Z"]`. -/
def allTypes : List PieceType := [.O, .I, .T, .L, .J, .S, .Z]

/-- One `type is None` pass of `_generation_phase`, restricted to the queue
and bag bookkeeping: refill the bag when empty, pop the front of the queue
as the produced type, move one bag element (chosen by
`randint(0, len(bag) - 1)`, modelled as `c % bag.length`) to the back of
the queue.  In every reachable state the queue is nonempty (it always has
7 entries), so the total `headD`/`tail` stand in for `pop(0)`. -/
def drawStep (s : GenState) (c : Nat) : PieceType × GenState :=
  let bag := if s.bag.isEmpty then allTypes else s.bag
  let i := c % bag.length
  (s.next_queue.headD PieceType.O,
   { next_queue := s.next_queue.tail ++ [bag.getD i PieceType.O],
     bag := bag.eraseIdx i })

/-- Run one draw per entry of `cs`, collecting the produced types. -/
def drawSeq : GenState → List Nat → List PieceType × GenState
  | s, [] => ([], s)
  | s, c :: cs =>
    let p := drawStep s c
    let q := drawSeq p.2 cs
    (p.1 :: q.1, q.2)

/-- `_init_next_queue`: the queue starts as a shuffled copy of the full
7-type list; a shuffle outcome is an arbitrary permutation of it. -/
def init_next_queue_base : List PieceType := allTypes

/-- The snapshot written by `save_game` (one logical field per line after
the timestamp).  `str`/`literal_eval` round-trip the piece dict, queue
list, stats dict, options dict and grid exactly, so those fields are
modelled by their values; the hold line is written raw (not through `str`),
which is why `save_game` needs it to be an actual string. -/
structure SaveFile where
  current_piece : Piece
  hold_line : PieceType
  next_queue : List PieceType
  stats : Stats
  game_options : GameOptions
  grid : Grid
deriving DecidableEq, Repr

/-- `save_game`: `"\n".join(lines)` raises `TypeError` when
`self.hold_queue` is `None` (it is placed in `lines` unconverted), which
`none` models; otherwise all fields are serialized. -/
def save_game (e : Engine) : Option SaveFile :=
  match e.hold_queue with
  | none => none
  | some t =>
    some { current_piece := e.current_piece, hold_line := t,
           next_queue := e.next_queue, stats := e.stats,
           game_options := e.game_options, grid := e.grid }

/-- `load_game`: parse lines 1..6 back into the same fields (line 0, the
timestamp, is skipped); the other engine attributes are untouched. -/
def load_game (e : Engine) (f : SaveFile) : Engine :=
  { e with
    current_piece := f.current_piece
    hold_queue := some f.hold_line
    next_queue := f.next_queue
    stats := f.stats
    game_options := f.game_options
    grid := f.grid }

/-! Spec-side definitions, phrased from the specification's words, used to
state the claims as refinements of the translated code. -/

/-- The per-direction `(col_delta, row_delta)` of the claim:
down is row-1, left is col-1, right is col+1. -/
def specDelta (direction : PyStr) : Int × Int :=
  if direction = ['D'] then (0, -1)
  else if direction = ['L'] then (-1, 0)
  else (1, 0)

/-- The claim's movement legality: every block, translated by the delta,
lands at `0 <= col < 10`, `0 <= row < 22`, on a cell that is empty (0),
ghost-only (11-17), or one of the active piece's own current block
coordinates. -/
def specCanMove (g : Grid) (blocks : List (Int × Int)) (d : Int × Int) :
    Bool :=
  blocks.all fun b =>
    let nc := b.1 + d.1
    let nr := b.2 + d.2
    decide (0 ≤ nc) && decide (nc < 10) && decide (0 ≤ nr) &&
      decide (nr < 22) &&
      (decide (getCell g nr nc = 0) ||
        (decide (11 ≤ getCell g nr nc) && decide (getCell g nr nc ≤ 17)) ||
        decide ((nc, nr) ∈ blocks))

/-- The claim's description of the grid after a successful move: cells of
the new footprint hold the piece's type value, cells of the old footprint
that are not re-covered are emptied, every other cell keeps its value. -/
def specMovedGrid (g : Grid) (oldB newB : List (Int × Int)) (v : Nat) :
    Grid :=
  (List.range g.length).map fun (r : Nat) =>
    (List.range (g.getD r []).length).map fun (c : Nat) =>
      if ((c : Int), (r : Int)) ∈ newB then v
      else if ((c : Int), (r : Int)) ∈ oldB then 0
      else getCellN g r c

/-- The claim's description of the engine after a successful move in
direction `(cd, rd)`: the piece translated, the grid footprint rewritten,
everything else untouched. -/
def specMovedEngine (e : Engine) (cd rd : Int) : Engine :=
  let p' := translatePiece e.current_piece cd rd
  { e with
    current_piece := p'
    grid := specMovedGrid e.grid (blocksOf e.current_piece) (blocksOf p')
      (gridPieceMap e.current_piece.type) }

/-- The claim's game-over trigger: some just-locked block at row 20 with
column 4..7, or at row 21 with column 4..6, or every block at row >= 20. -/
def gameOverSpec (p : Piece) : Bool :=
  ((blocksOf p).any fun b =>
    decide (b.2 = 20) && decide (4 ≤ b.1) && decide (b.1 < 8)) ||
  ((blocksOf p).any fun b =>
    decide (b.2 = 21) && decide (4 ≤ b.1) && decide (b.1 < 7)) ||
  ((blocksOf p).all fun b => decide (20 ≤ b.2))

/-- Well-formed grid: 22 rows of 10 cells whose values are the documented
cell values (0-7 locked/empty, 11-17 ghost). -/
def GridWF (g : Grid) : Prop :=
  g.length = 22 ∧ ∀ row ∈ g, row.length = 10 ∧
    ∀ v ∈ row, v ≤ 7 ∨ (11 ≤ v ∧ v ≤ 17)

/-- The active piece's blocks are inside the grid (true of every reachable
engine state; Python would raise on a footprint write outside the list
bounds, which the model's `setCell` cannot see). -/
def PieceInGrid (p : Piece) : Prop :=
  ∀ b ∈ blocksOf p, 0 ≤ b.1 ∧ b.1 < 10 ∧ 0 ≤ b.2 ∧ b.2 < 22

instance : DecidablePred GridWF := fun g => by
  unfold GridWF; infer_instance

instance : DecidablePred PieceInGrid := fun p => by
  unfold PieceInGrid; infer_instance

/-! Concrete fixtures used by the theorems below. -/

/-- The T piece at its spawn layout (`_generation_phase`). -/
def pieceT : Piece :=
  { type := .T, facing := .N, block1 := (5, 21), block2 := (4, 20),
    block3 := (5, 20), block4 := (6, 20) }

/-- The empty 22 x 10 grid built by `_create_grid`. -/
def emptyGrid : Grid := List.replicate 22 (List.replicate 10 0)

/-- A reachable engine state: spawn T on an otherwise empty board, nothing
held, initial stats. -/
def baseEngine : Engine :=
  { grid := emptyGrid
    next_queue := []
    hold_queue := none
    current_piece := pieceT
    stats := { score := 0, lines := 0, level := 1, goal := 0 }
    game_running := true
    game_paused := false
    hold_available := true
    bag := []
    fallspeed := 1000
    game_options :=
      { hold_queue := true
        ghost_piece := true
        lock_down := ['E', 'x', 't', 'e', 'n', 'd', 'e', 'd'] } }

/-- A grid whose bottom two rows are full of locked blocks and whose third
row carries a single marker block (value 2) so it is not full. -/
def gridC1 : Grid :=
  List.replicate 10 1 :: List.replicate 10 1 ::
    (2 :: List.replicate 9 0) :: List.replicate 19 (List.replicate 10 0)

def engineC1 : Engine := { baseEngine with grid := gridC1 }

/-- A grid whose only full row is the sky row 20. -/
def gridC4 : Grid :=
  List.replicate 20 (List.replicate 10 0) ++
    [List.replicate 10 1] ++ [List.replicate 10 0]

def engineC4 : Engine := { baseEngine with grid := gridC4 }

/-- The spawn T written onto the empty grid (value 3), the grid state that
accompanies `pieceT` in a reachable engine. -/
def gridT : Grid := placeBlocks emptyGrid (blocksOf pieceT) 3

def engineT : Engine := { baseEngine with grid := gridT }

/-! ## C1 -/

/-- C1 (failing input): with rows 0 and 1 both full and a marker block on
row 2, `_pattern_match` collects exactly the two full rows and adds 2 to
the lines stat, but `_clear_rows` pops by original index against the
already-shifted grid: afterwards the bottom row is still a full row (the
old row 1 survived) and the marker row (old row 2, not full) was deleted.
The claim's "removes exactly the full rows" fails whenever two or more
rows are full at once. -/
theorem C1_clear_rows_failing_input :
    rows_to_clear gridC1 = [0, 1] ∧
    (pattern_match engineC1).stats.lines = 2 ∧
    (pattern_match engineC1).grid.getD 0 [] = List.replicate 10 1 ∧
    rowFull ((pattern_match engineC1).grid.getD 0 []) = true ∧
    (pattern_match engineC1).grid.getD 1 [] = List.replicate 10 0 := by
  decide

/-! ## C3 -/

/-- C3 (failing input): rotating the spawn T clockwise on an otherwise
empty board succeeds with the first offset entry (kick `(0,0)`): the four
blocks are rewritten to the rotated candidates — but the piece's facing is
still `N`.  `rotation_map` says the new facing of a clockwise rotation
from `N` is `E`, yet no code path ever writes `current_piece["facing"]`
after a rotation, so the claim's "updating the piece's facing to the new
facing" fails. -/
theorem C3_rotation_facing_not_updated :
    (move_current_piece engineT ['C']).map (fun x => x.current_piece) =
      some { type := .T, facing := .N, block1 := (6, 20), block2 := (5, 21),
             block3 := (5, 20), block4 := (5, 19) } ∧
    (rotationPair Facing.N).2 = Facing.E := by
  decide

/-! ## C4 -/

/-- C4 (counterexample): on a grid whose only full row is the sky row 20,
`_pattern_match` removes that row and counts it: the scan does include
rows 20 and 21, contrary to the claim. -/
theorem C4_sky_row_cleared_cex :
    rowFull (gridC4.getD 20 []) = true ∧
    rows_to_clear gridC4 = [20] ∧
    (pattern_match engineC4).stats.lines = 1 ∧
    (pattern_match engineC4).grid.getD 20 [] = List.replicate 10 0 := by
  decide

/-- C4 (amended): the line-clear scan runs over every index in
`range(len(grid))`, so a full sky row (20 or 21) is collected like any
other full row. -/
theorem C4_amended_sky_rows_scanned (g : Grid) (i : Nat)
    (hlen : g.length = 22) (hi : i = 20 ∨ i = 21)
    (hfull : rowFull (g.getD i []) = true) :
    i ∈ rows_to_clear g := by
  have hlt : i < g.length := by omega
  rw [List.getD_eq_getElem _ _ hlt] at hfull
  simp [rows_to_clear, List.mem_filter, List.mem_range, hlt, hfull]

/-- C4 witness: the amended theorem applied to the concrete sky-row grid. -/
theorem C4_amended_witness : 20 ∈ rows_to_clear gridC4 :=
  C4_amended_sky_rows_scanned gridC4 20 (by decide) (Or.inl rfl) (by decide)

/-! ## C10 -/

/-- C10: Python's `direction in "LRD"` accepts the empty string and
`"LR"`, but `_check_movement_possible` assigns no deltas for them, so
their first use raises (`none`): the public move command errors instead of
completing as a no-op for these substring directions. -/
theorem C10_substring_directions_raise (e : Engine) :
    pyIn [] ['L', 'R', 'D'] = true ∧
    pyIn ['L', 'R'] ['L', 'R', 'D'] = true ∧
    move_current_piece e [] = none ∧
    move_current_piece e ['L', 'R'] = none := by
  refine ⟨by decide, by decide, ?_, ?_⟩ <;>
    simp [move_current_piece, check_movement_possible,
      (by decide : pyIn [] ['L', 'R', 'D'] = true),
      (by decide : pyIn ['L', 'R'] ['L', 'R', 'D'] = true),
      (by decide : movementDelta [] = none),
      (by decide : movementDelta ['L', 'R'] = none)]

/-! ## C7 -/

/-- C7 (counterexample): on a reachable state whose hold slot is empty
(`None`) — here the spawn-T engine — `save_game` places `self.hold_queue`
unconverted into the list handed to `"\n".join`, which raises `TypeError`:
save does not complete, so save-then-load cannot round-trip from this
state. -/
theorem C7_save_none_hold_cex :
    baseEngine.hold_queue = none ∧ save_game baseEngine = none := by
  decide

/-- C7 (amended): for every engine state whose hold slot actually holds a
piece type, `save_game` succeeds and `load_game` of the produced snapshot
restores the very same engine state (grid, active piece, hold slot, next
queue, stats and options are written and parsed back field for field). -/
theorem C7_roundtrip_nonempty_hold (e : Engine) (t : PieceType)
    (h : e.hold_queue = some t) :
    ∃ f, save_game e = some f ∧ load_game e f = e := by
  refine ⟨_, by rw [save_game, h], ?_⟩
  cases e
  simp_all [load_game]

/-- C7 witness: the round trip on the spawn-T engine holding a T. -/
theorem C7_roundtrip_witness :
    ∃ f, save_game { baseEngine with hold_queue := some PieceType.T } =
        some f ∧
      load_game { baseEngine with hold_queue := some PieceType.T } f =
        { baseEngine with hold_queue := some PieceType.T } :=
  C7_roundtrip_nonempty_hold _ PieceType.T rfl

/-! ## C8 -/

/-- The initial stats set by `__init__` / `reset_state`. -/
def initialStats : Stats := { score := 0, lines := 0, level := 1, goal := 0 }

/-- C8: the completion phase levels up exactly when the lines stat has
reached the goal — level +1, goal + new_level * 5, fall speed recomputed
from the guideline formula — and leaves level, goal and fall speed alone
otherwise.  Concretely, level 1 gives a fall speed of exactly 1000 ms per
row, and the first level-up from the initial stats (level 1, goal 0)
yields level 2 and goal 10. -/
theorem C8_completion_level_goal_fallspeed (e : Engine) :
    ((completion_phase e).stats.level =
      if e.stats.goal ≤ e.stats.lines then e.stats.level + 1
      else e.stats.level) ∧
    ((completion_phase e).stats.goal =
      if e.stats.goal ≤ e.stats.lines then
        e.stats.goal + (e.stats.level + 1) * 5
      else e.stats.goal) ∧
    ((completion_phase e).fallspeed =
      if e.stats.goal ≤ e.stats.lines then
        set_fall_speed (e.stats.level + 1)
      else e.fallspeed) ∧
    set_fall_speed 1 = 1000 ∧
    (completion_phase { baseEngine with stats := initialStats }).stats.level
      = 2 ∧
    (completion_phase { baseEngine with stats := initialStats }).stats.goal
      = 10 := by
  refine ⟨?_, ?_, ?_, ?_, ?_, ?_⟩
  · by_cases h : e.stats.goal ≤ e.stats.lines <;>
      simp [completion_phase, h]
  · by_cases h : e.stats.goal ≤ e.stats.lines <;>
      simp [completion_phase, h]
  · by_cases h : e.stats.goal ≤ e.stats.lines <;>
      simp [completion_phase, h]
  · unfold set_fall_speed pythonRound
    norm_num
  · simp [completion_phase, initialStats, baseEngine]
  · simp [completion_phase, initialStats, baseEngine]

/-! ## C9 -/

/-- A block taken by one of the two spawn-zone branches of the loop. -/
def spawnHit (b : Int × Int) : Bool :=
  decide (b.2 = 20 ∧ 4 ≤ b.1 ∧ b.1 < 8) ||
    decide (b.2 = 21 ∧ 4 ≤ b.1 ∧ b.1 < 7)

lemma gameOverStep_foldl (bs : List (Int × Int)) (a b c : Bool) :
    bs.foldl gameOverStep (a, b, c) =
      (a || bs.any spawnHit,
       b || bs.any (fun x => !spawnHit x && decide (x.2 < 20)),
       c || bs.any (fun x => !spawnHit x && !decide (x.2 < 20))) := by
  induction bs generalizing a b c with
  | nil => simp
  | cons x t ih =>
    by_cases h1 : x.2 = 20 ∧ 4 ≤ x.1 ∧ x.1 < 8
    · have hs : spawnHit x = true := by simp [spawnHit, h1]
      simp only [List.foldl_cons, gameOverStep, if_pos h1, ih,
        List.any_cons, hs]
      simp
    · by_cases h2 : x.2 = 21 ∧ 4 ≤ x.1 ∧ x.1 < 7
      · have hs : spawnHit x = true := by simp [spawnHit, h2]
        simp only [List.foldl_cons, gameOverStep, if_neg h1, if_pos h2, ih,
          List.any_cons, hs]
        simp
      · have hs : spawnHit x = false := by simp [spawnHit, h1, h2]
        by_cases h3 : x.2 < 20
        · simp only [List.foldl_cons, gameOverStep, if_neg h1, if_neg h2,
            if_pos h3, ih, List.any_cons, hs, h3]
          simp [h3]
        · simp only [List.foldl_cons, gameOverStep, if_neg h1, if_neg h2,
            if_neg h3, ih, List.any_cons, hs]
          simp [h3]

/-- The flag-based decision of `_check_game_overs` agrees with the claim's
disjunction on every piece (a piece always has its four blocks, so the
block list is never empty). -/
lemma check_game_overs_eq_spec (p : Piece) (running : Bool) :
    check_game_overs p running =
      if gameOverSpec p then false else running := by
  have hne : blocksOf p ≠ [] := by simp [blocksOf]
  have key : ((blocksOf p).any spawnHit ||
      ((blocksOf p).any (fun x => !spawnHit x && !decide (x.2 < 20)) &&
        !(blocksOf p).any (fun x => !spawnHit x && decide (x.2 < 20)))) =
      gameOverSpec p := by
    generalize hbs : blocksOf p = bs at hne
    by_cases hP : (∃ x ∈ bs, x.2 = 20 ∧ 4 ≤ x.1 ∧ x.1 < 8) ∨
        (∃ x ∈ bs, x.2 = 21 ∧ 4 ≤ x.1 ∧ x.1 < 7)
    · have h1 : bs.any spawnHit = true := by
        rcases hP with ⟨x, hx, h⟩ | ⟨x, hx, h⟩ <;>
          exact List.any_eq_true.mpr ⟨x, hx, by simp [spawnHit, h]⟩
      have h2 : gameOverSpec p = true := by
        unfold gameOverSpec
        rw [hbs]
        rcases hP with ⟨x, hx, h⟩ | ⟨x, hx, h⟩
        · have : bs.any (fun b => decide (b.2 = 20) && decide (4 ≤ b.1) &&
              decide (b.1 < 8)) = true :=
            List.any_eq_true.mpr ⟨x, hx, by simp [h.1, h.2.1, h.2.2]⟩
          simp [this]
        · have : bs.any (fun b => decide (b.2 = 21) && decide (4 ≤ b.1) &&
              decide (b.1 < 7)) = true :=
            List.any_eq_true.mpr ⟨x, hx, by simp [h.1, h.2.1, h.2.2]⟩
          simp [this]
      simp [h1, h2]
    · push_neg at hP
      obtain ⟨hPa, hPb⟩ := hP
      have hnosp : ∀ x ∈ bs, spawnHit x = false := fun x hx => by
        have ha := hPa x hx
        have hb := hPb x hx
        simp only [spawnHit, Bool.or_eq_false_iff,
          decide_eq_false_iff_not]
        constructor <;> omega
      have h1 : bs.any spawnHit = false :=
        List.any_eq_false.mpr fun x hx => by simp [hnosp x hx]
      have h2a : bs.any (fun b => decide (b.2 = 20) && decide (4 ≤ b.1) &&
          decide (b.1 < 8)) = false :=
        List.any_eq_false.mpr fun x hx => by
          have := hPa x hx
          simp only [Bool.and_eq_true, decide_eq_true_eq]
          omega
      have h2b : bs.any (fun b => decide (b.2 = 21) && decide (4 ≤ b.1) &&
          decide (b.1 < 7)) = false :=
        List.any_eq_false.mpr fun x hx => by
          have := hPb x hx
          simp only [Bool.and_eq_true, decide_eq_true_eq]
          omega
      have hspec : gameOverSpec p = bs.all (fun b => decide (20 ≤ b.2)) := by
        unfold gameOverSpec
        rw [hbs, h2a, h2b]
        simp
      rw [hspec, h1]
      by_cases hQ : ∀ x ∈ bs, (20 : Int) ≤ x.2
      · have hall : bs.all (fun b => decide (20 ≤ b.2)) = true :=
          List.all_eq_true.mpr fun x hx => by simpa using hQ x hx
        have hbelow : bs.any (fun x => !spawnHit x && decide (x.2 < 20)) =
            false :=
          List.any_eq_false.mpr fun x hx => by
            have := hQ x hx
            simp [show ¬(x.2 < 20) by omega]
        obtain ⟨x0, hx0⟩ := List.exists_mem_of_ne_nil bs hne
        have habove : bs.any (fun x => !spawnHit x && !decide (x.2 < 20)) =
            true :=
          List.any_eq_true.mpr ⟨x0, hx0, by
            have := hQ x0 hx0
            simp [hnosp x0 hx0, show ¬(x0.2 < 20) by omega]⟩
        simp [hall, hbelow, habove]
      · push_neg at hQ
        obtain ⟨x0, hx0, hlt⟩ := hQ
        have hall : bs.all (fun b => decide (20 ≤ b.2)) = false := by
          simp only [List.all_eq_false]
          exact ⟨x0, hx0, by simpa using by omega⟩
        have hbelow : bs.any (fun x => !spawnHit x && decide (x.2 < 20)) =
            true :=
          List.any_eq_true.mpr ⟨x0, hx0, by
            simp [hnosp x0 hx0, show x0.2 < 20 by omega]⟩
        simp [hall, hbelow]
  unfold check_game_overs
  rw [gameOverStep_foldl]
  simp only [Bool.false_or]
  rw [key]

lemma completion_phase_piece (e : Engine) :
    (completion_phase e).current_piece = e.current_piece := by
  unfold completion_phase
  by_cases h : e.stats.goal ≤ e.stats.lines <;> simp [h]

lemma completion_phase_running (e : Engine) :
    (completion_phase e).game_running =
      check_game_overs e.current_piece e.game_running := by
  unfold completion_phase
  by_cases h : e.stats.goal ≤ e.stats.lines <;> simp [h]

/-- C9: after a lock, the game-over evaluation (run at the end of the
completion phase on the piece that just locked) clears `game_running`
exactly when the claim's trigger condition holds — some block at row 20
col 4..7, row 21 col 4..6, or all four blocks at row >= 20 — and the
generation phase is entered (`(lock_phase e).2 = true`) exactly when
`game_running` survives; without a trigger the flag keeps its previous
value. -/
theorem C9_game_over_evaluation (e : Engine) :
    ((lock_phase e).1.game_running =
      if gameOverSpec e.current_piece then false else e.game_running) ∧
    ((lock_phase e).2 =
      if gameOverSpec e.current_piece then false else e.game_running) := by
  have h : (lock_phase e).1.game_running =
      if gameOverSpec e.current_piece then false else e.game_running := by
    show (completion_phase
        (pattern_match { e with hold_available := true })).game_running = _
    rw [completion_phase_running]
    have hp : (pattern_match
        { e with hold_available := true }).current_piece =
        e.current_piece := rfl
    have hr : (pattern_match
        { e with hold_available := true }).game_running =
        e.game_running := rfl
    rw [hp, hr, check_game_overs_eq_spec]
  exact ⟨h, h⟩

/-! ## C5 / C6: the 7-bag randomizer -/

lemma perm_getD_eraseIdx (l : List PieceType) (i : Nat) (d : PieceType)
    (h : i < l.length) : (l.getD i d :: l.eraseIdx i).Perm l := by
  induction l generalizing i with
  | nil => simp at h
  | cons a t ih =>
    cases i with
    | zero => simp
    | succ j =>
      have hj : j < t.length := by simpa using h
      exact (List.Perm.swap a (t.getD j d) (t.eraseIdx j)).trans
        ((ih j hj).cons a)

lemma drawStep_empty (s : GenState) (c : Nat) (h : s.bag = []) :
    (drawStep s c).2 =
      { next_queue := s.next_queue.tail ++ [allTypes.getD (c % 7) PieceType.O]
        bag := allTypes.eraseIdx (c % 7) } := by
  simp [drawStep, h]
  exact ⟨rfl, rfl⟩

lemma drawStep_nonempty (s : GenState) (c : Nat) (h : ¬s.bag = []) :
    (drawStep s c).2 =
      { next_queue := s.next_queue.tail ++
          [s.bag.getD (c % s.bag.length) PieceType.O]
        bag := s.bag.eraseIdx (c % s.bag.length) } := by
  simp [drawStep, h]

/-- The randomizer invariant: the queue always holds 7 entries, the bag at
most 7, and the entries appended since the last refill (the last
`7 - bag.length` queue entries) together with the remaining bag form a
permutation of the 7 types. -/
def GenInv (s : GenState) : Prop :=
  s.next_queue.length = 7 ∧ s.bag.length ≤ 7 ∧
    (s.next_queue.drop s.bag.length ++ s.bag).Perm allTypes

lemma genInv_drawStep (s : GenState) (c : Nat) (h : GenInv s) :
    GenInv (drawStep s c).2 := by
  obtain ⟨hq, hb, hp⟩ := h
  obtain ⟨q0, qt, hqq⟩ : ∃ q0 qt, s.next_queue = q0 :: qt := by
    cases hqs : s.next_queue with
    | nil => rw [hqs] at hq; simp at hq
    | cons a t => exact ⟨a, t, rfl⟩
  have hqt : qt.length = 6 := by
    rw [hqq] at hq; simpa using hq
  by_cases hbe : s.bag = []
  · rw [drawStep_empty s c hbe]
    have hilt : c % 7 < (allTypes : List PieceType).length :=
      Nat.mod_lt _ (by omega)
    have hblen : (allTypes.eraseIdx (c % 7)).length = 6 := by
      have := List.length_eraseIdx_add_one hilt
      simp only [show (allTypes : List PieceType).length = 7 from rfl] at this
      omega
    refine ⟨by simp [hqq, hqt],
      by show (allTypes.eraseIdx (c % 7)).length ≤ 7; omega, ?_⟩
    have hdrop : ((s.next_queue.tail ++
        [allTypes.getD (c % 7) PieceType.O]).drop 6) =
        [allTypes.getD (c % 7) PieceType.O] := by
      rw [hqq]
      have h1 : ((qt ++ [allTypes.getD (c % 7) PieceType.O]).drop 6) =
          qt.drop 6 ++ ([allTypes.getD (c % 7) PieceType.O]).drop
            (6 - qt.length) := List.drop_append_eq_append_drop
      simp only [List.tail_cons]
      rw [h1, hqt]
      simp [hqt]
    simp only [hblen, List.tail_cons, hqq] at hdrop ⊢
    rw [hdrop]
    exact perm_getD_eraseIdx allTypes (c % 7) PieceType.O hilt
  · have hbpos : 0 < s.bag.length := List.length_pos.mpr hbe
    rw [drawStep_nonempty s c hbe]
    set i := c % s.bag.length with hidef
    have hilt : i < s.bag.length := Nat.mod_lt _ hbpos
    have hblen : (s.bag.eraseIdx i).length = s.bag.length - 1 := by
      have := List.length_eraseIdx_add_one hilt
      omega
    refine ⟨by simp [hqq, hqt],
      by show (s.bag.eraseIdx i).length ≤ 7; omega, ?_⟩
    have hdrop : ((s.next_queue.tail ++
        [s.bag.getD i PieceType.O]).drop (s.bag.length - 1)) =
        qt.drop (s.bag.length - 1) ++ [s.bag.getD i PieceType.O] := by
      rw [hqq]
      have h1 : ((qt ++ [s.bag.getD i PieceType.O]).drop
          (s.bag.length - 1)) = qt.drop (s.bag.length - 1) ++
          ([s.bag.getD i PieceType.O]).drop (s.bag.length - 1 - qt.length)
          := List.drop_append_eq_append_drop
      have h2 : s.bag.length - 1 - qt.length = 0 := by omega
      simpa [h2] using h1
    simp only [hblen, List.tail_cons, hqq] at hdrop ⊢
    rw [hdrop]
    have hdq : (q0 :: qt).drop s.bag.length =
        qt.drop (s.bag.length - 1) := by
      have hsplit : s.bag.length = (s.bag.length - 1) + 1 := by omega
      rw [hsplit]
      rfl
    rw [hqq, hdq] at hp
    have hstep : (qt.drop (s.bag.length - 1) ++
        ([s.bag.getD i PieceType.O] ++ s.bag.eraseIdx i)).Perm
        (qt.drop (s.bag.length - 1) ++ s.bag) :=
      List.Perm.append_left _ (perm_getD_eraseIdx s.bag i PieceType.O hilt)
    have hstep' : (qt.drop (s.bag.length - 1) ++
        [s.bag.getD i PieceType.O] ++ s.bag.eraseIdx i).Perm
        (qt.drop (s.bag.length - 1) ++ s.bag) := by
      simpa [List.append_assoc] using hstep
    exact hstep'.trans hp

lemma genInv_drawSeq (cs : List Nat) (s : GenState) (h : GenInv s) :
    GenInv (drawSeq s cs).2 := by
  induction cs generalizing s with
  | nil => simpa [drawSeq] using h
  | cons c cs ih => exact ih _ (genInv_drawStep s c h)

/-- The first `k` draws pop the first `k` queue entries, in order (appended
entries only surface after the whole existing queue has been served). -/
lemma drawSeq_outputs (cs : List Nat) (s : GenState)
    (h : cs.length ≤ s.next_queue.length) :
    (drawSeq s cs).1 = s.next_queue.take cs.length := by
  induction cs generalizing s with
  | nil => simp [drawSeq]
  | cons c cs ih =>
    obtain ⟨q0, qt, hqq⟩ : ∃ q0 qt, s.next_queue = q0 :: qt := by
      cases hqs : s.next_queue with
      | nil => rw [hqs] at h; simp at h
      | cons a t => exact ⟨a, t, rfl⟩
    have hct : cs.length ≤ qt.length := by
      rw [hqq] at h; simpa using h
    have hqstep : (drawStep s c).2.next_queue = qt ++
        [(if s.bag.isEmpty then allTypes else s.bag).getD
          (c % (if s.bag.isEmpty then allTypes else s.bag).length)
          PieceType.O] := by
      simp [drawStep, hqq]
    have hrec := ih (drawStep s c).2 (by
      rw [hqstep]
      simp only [List.length_append, List.length_cons, List.length_nil]
      omega)
    have hout : (drawStep s c).1 = q0 := by
      simp [drawStep, hqq]
    have htake : (qt ++ [(if s.bag.isEmpty then allTypes else s.bag).getD
        (c % (if s.bag.isEmpty then allTypes else s.bag).length)
        PieceType.O]).take cs.length = qt.take cs.length := by
      rw [List.take_append_eq_append_take]
      simp [Nat.sub_eq_zero_of_le hct]
    have hunf : (drawSeq s (c :: cs)).1 =
        (drawStep s c).1 :: (drawSeq (drawStep s c).2 cs).1 := rfl
    rw [hunf, hout, hrec, hqstep, htake, hqq]
    simp

/-- C5: starting from the shuffled initial queue (any permutation of the 7
types) and an empty bag, run any number of draws with any random choices;
whenever the bag has just been emptied — i.e. the next draw begins by
refilling it to all 7 types — the next 7 draws produce each of the 7 piece
types exactly once. -/
theorem C5_seven_bag_window (q0 : List PieceType) (hq : q0.Perm allTypes)
    (pre win : List Nat) (hwin : win.length = 7)
    (hbag : (drawSeq ⟨q0, []⟩ pre).2.bag = []) :
    ((drawSeq (drawSeq ⟨q0, []⟩ pre).2 win).1).Perm allTypes := by
  have h0 : GenInv ⟨q0, []⟩ := by
    refine ⟨by simpa using hq.length_eq, by simp, by simpa using hq⟩
  have hinv := genInv_drawSeq pre _ h0
  obtain ⟨hlen, _, hperm⟩ := hinv
  rw [hbag] at hperm
  simp only [List.drop_zero, List.append_nil] at hperm
  have houts := drawSeq_outputs win (drawSeq ⟨q0, []⟩ pre).2
    (by rw [hwin, hlen])
  rw [houts, hwin, ← hlen, List.take_length]
  exact hperm

/-- C5 witness: the very first bag window with the identity shuffle and
constant random choices. -/
theorem C5_seven_bag_window_witness :
    (List.replicate 7 0).length = 7 ∧
    ((drawSeq (drawSeq ⟨allTypes, []⟩ []).2 (List.replicate 7 0)).1).Perm
      allTypes :=
  ⟨rfl, C5_seven_bag_window allTypes (List.Perm.refl _) [] _ rfl rfl⟩

/-- C6 (counterexample): `_init_next_queue` fills `next_queue` with all 7
types before shuffling, so the queue observed right after engine
initialization has 7 entries, not 6 (the identity shuffle is a possible
outcome, and every shuffle preserves the length 7). -/
theorem C6_initial_queue_length_cex :
    init_next_queue_base.length = 7 ∧ ¬ init_next_queue_base.length = 6 := by
  decide

/-- C6 (amended): the next queue always has length **7**: it has length 7
immediately after initialization (a shuffle of the 7-type list), and every
draw (pop front, append one) keeps it at 7. -/
theorem C6_queue_length_always_seven (q0 : List PieceType)
    (hq : q0.Perm allTypes) (cs : List Nat) :
    q0.length = 7 ∧ (drawSeq ⟨q0, []⟩ cs).2.next_queue.length = 7 := by
  have h0 : GenInv ⟨q0, []⟩ := by
    refine ⟨by simpa using hq.length_eq, by simp, by simpa using hq⟩
  exact ⟨by simpa using hq.length_eq, (genInv_drawSeq cs _ h0).1⟩

/-- C6 witness: three draws from the identity-shuffled queue. -/
theorem C6_queue_length_witness :
    allTypes.length = 7 ∧
    (drawSeq ⟨allTypes, []⟩ [1, 2, 3]).2.next_queue.length = 7 :=
  C6_queue_length_always_seven allTypes (List.Perm.refl _) [1, 2, 3]

/-! ## C2: movement check and move -/

lemma listGetD_set {α : Type} (l : List α) (n m : Nat) (a d : α) :
    (l.set n a).getD m d = if n = m ∧ n < l.length then a else l.getD m d := by
  induction l generalizing n m with
  | nil => simp
  | cons x xs ih =>
    cases n with
    | zero =>
      cases m with
      | zero => simp
      | succ j => simp
    | succ k =>
      cases m with
      | zero => simp
      | succ j =>
        have := ih k j
        simp only [List.set_cons_succ, List.getD_cons_succ, this,
          List.length_cons]
        by_cases hkj : k = j
        · subst hkj
          by_cases hk : k < xs.length
          · rw [if_pos ⟨rfl, hk⟩, if_pos ⟨rfl, by omega⟩]
          · rw [if_neg (by omega), if_neg (by omega)]
        · rw [if_neg (by omega), if_neg (by omega)]

lemma length_setCellN (g : Grid) (r c v : Nat) :
    (setCellN g r c v).length = g.length := by
  simp [setCellN]

lemma rowlen_setCellN (g : Grid) (r c v : Nat) (i : Nat) :
    ((setCellN g r c v).getD i []).length = (g.getD i []).length := by
  unfold setCellN
  rw [listGetD_set]
  by_cases h : r = i ∧ r < g.length
  · rw [if_pos h]
    rw [h.1]
    simp
  · rw [if_neg h]

lemma getCellN_setCellN (g : Grid) (r c v : Nat) (i j : Nat) :
    getCellN (setCellN g r c v) i j =
      if r = i ∧ c = j ∧ r < g.length ∧ c < (g.getD r []).length then v
      else getCellN g i j := by
  unfold getCellN setCellN
  rw [listGetD_set]
  by_cases hr : r = i ∧ r < g.length
  · rw [if_pos hr]
    rw [listGetD_set]
    obtain ⟨hri, hrl⟩ := hr
    subst hri
    by_cases hc : c = j ∧ c < (g.getD r []).length
    · rw [if_pos hc, if_pos ⟨rfl, hc.1, hrl, hc.2⟩]
    · rw [if_neg hc, if_neg (by tauto)]
  · rw [if_neg hr, if_neg (by tauto)]

lemma length_setCell (g : Grid) (r c : Int) (v : Nat) :
    (setCell g r c v).length = g.length := by
  unfold setCell
  split
  · rw [length_setCellN]
  · rfl

lemma rowlen_setCell (g : Grid) (r c : Int) (v : Nat) (i : Nat) :
    ((setCell g r c v).getD i []).length = (g.getD i []).length := by
  unfold setCell
  split
  · rw [rowlen_setCellN]
  · rfl

lemma getCellN_setCell (g : Grid) (r c : Int) (v : Nat) (i j : Nat) :
    getCellN (setCell g r c v) i j =
      if r = (i : Int) ∧ c = (j : Int) ∧ i < g.length ∧
          j < (g.getD i []).length then v
      else getCellN g i j := by
  unfold setCell
  by_cases hnn : 0 ≤ r ∧ 0 ≤ c
  · rw [if_pos hnn]
    rw [getCellN_setCellN]
    by_cases h : r.toNat = i ∧ c.toNat = j ∧ r.toNat < g.length ∧
        c.toNat < (g.getD r.toNat []).length
    · rw [if_pos h]
      obtain ⟨h1, h2, h3, h4⟩ := h
      rw [if_pos ⟨by omega, by omega, by omega, by rw [← h1]; omega⟩]
    · rw [if_neg h]
      rw [if_neg (by
        rintro ⟨e1, e2, e3, e4⟩
        exact h ⟨by omega, by omega, by omega, by
          have : r.toNat = i := by omega
          rw [this]
          omega⟩)]
  · rw [if_neg hnn]
    rw [if_neg (by rintro ⟨e1, e2, _⟩; exact hnn ⟨by omega, by omega⟩)]

lemma length_placeBlocks (g : Grid) (bs : List (Int × Int)) (v : Nat) :
    (placeBlocks g bs v).length = g.length := by
  induction bs generalizing g with
  | nil => rfl
  | cons b t ih =>
    show (placeBlocks (setCell g b.2 b.1 v) t v).length = _
    rw [ih, length_setCell]

lemma rowlen_placeBlocks (g : Grid) (bs : List (Int × Int)) (v : Nat)
    (i : Nat) :
    ((placeBlocks g bs v).getD i []).length = (g.getD i []).length := by
  induction bs generalizing g with
  | nil => rfl
  | cons b t ih =>
    show ((placeBlocks (setCell g b.2 b.1 v) t v).getD i []).length = _
    rw [ih, rowlen_setCell]

lemma getCellN_placeBlocks (g : Grid) (bs : List (Int × Int)) (v : Nat)
    (i j : Nat) :
    getCellN (placeBlocks g bs v) i j =
      if ((j : Int), (i : Int)) ∈ bs ∧ i < g.length ∧
          j < (g.getD i []).length then v
      else getCellN g i j := by
  induction bs generalizing g with
  | nil => simp [placeBlocks]
  | cons b t ih =>
    show getCellN (placeBlocks (setCell g b.2 b.1 v) t v) i j = _
    rw [ih, length_setCell, rowlen_setCell, getCellN_setCell]
    by_cases hbound : i < g.length ∧ j < (g.getD i []).length
    · by_cases hmem : ((j : Int), (i : Int)) ∈ t
      · rw [if_pos ⟨hmem, hbound⟩,
          if_pos ⟨List.mem_cons_of_mem b hmem, hbound⟩]
      · rw [if_neg (by tauto)]
        by_cases hb : b.2 = (i : Int) ∧ b.1 = (j : Int)
        · have hbeq : ((j : Int), (i : Int)) = b :=
            Prod.ext_iff.mpr ⟨hb.2.symm, hb.1.symm⟩
          rw [if_pos ⟨hb.1, hb.2, hbound.1, hbound.2⟩,
            if_pos ⟨List.mem_cons.mpr (Or.inl hbeq), hbound⟩]
        · rw [if_neg (by tauto)]
          rw [if_neg (by
            rintro ⟨hc, _⟩
            rcases List.mem_cons.mp hc with he | ht
            · exact hb ⟨(Prod.ext_iff.mp he).2.symm,
                (Prod.ext_iff.mp he).1.symm⟩
            · exact hmem ht)]
    · rw [if_neg (by tauto), if_neg (by tauto), if_neg (by tauto)]

lemma length_specMovedGrid (g : Grid) (oldB newB : List (Int × Int))
    (v : Nat) : (specMovedGrid g oldB newB v).length = g.length := by
  simp [specMovedGrid]

lemma row_specMovedGrid (g : Grid) (oldB newB : List (Int × Int)) (v : Nat)
    (i : Nat) (hi : i < g.length) :
    (specMovedGrid g oldB newB v).getD i [] =
      (List.range (g.getD i []).length).map fun (c : Nat) =>
        if ((c : Int), (i : Int)) ∈ newB then v
        else if ((c : Int), (i : Int)) ∈ oldB then 0
        else getCellN g i c := by
  unfold specMovedGrid
  rw [List.getD_eq_getElem _ _ (by simpa using hi), List.getElem_map,
    List.getElem_range]

lemma getCellN_specMovedGrid (g : Grid) (oldB newB : List (Int × Int))
    (v : Nat) (i j : Nat) (hi : i < g.length)
    (hj : j < (g.getD i []).length) :
    getCellN (specMovedGrid g oldB newB v) i j =
      (if ((j : Int), (i : Int)) ∈ newB then v
       else if ((j : Int), (i : Int)) ∈ oldB then 0
       else getCellN g i j) := by
  unfold getCellN
  rw [row_specMovedGrid g oldB newB v i hi,
    List.getD_eq_getElem _ _ (by simpa using hj), List.getElem_map,
    List.getElem_range]
  rfl

lemma grid_ext (g1 g2 : Grid) (hl : g1.length = g2.length)
    (hrow : ∀ i, i < g2.length →
      (g1.getD i []).length = (g2.getD i []).length)
    (hcell : ∀ i j, i < g2.length → j < (g2.getD i []).length →
      getCellN g1 i j = getCellN g2 i j) : g1 = g2 := by
  refine List.ext_getElem hl fun i h1 h2 => ?_
  refine List.ext_getElem ?_ fun j hj1 hj2 => ?_
  · have := hrow i h2
    rwa [List.getD_eq_getElem _ _ h1, List.getD_eq_getElem _ _ h2] at this
  · have := hcell i j h2 (by
      rwa [List.getD_eq_getElem _ _ h2])
    unfold getCellN at this
    rwa [List.getD_eq_getElem _ _ h1, List.getD_eq_getElem _ _ h2,
      List.getD_eq_getElem _ _ hj1, List.getD_eq_getElem _ _ hj2] at this

/-- The two-pass footprint rewrite of `_update_grid_with_current_piece`
produces exactly the claim's cell-wise description: new footprint cells get
the type value, uncovered old footprint cells become empty, all other
cells are untouched. -/
lemma update_grid_eq_specMovedGrid (g : Grid) (oldp newp : Piece)
    (hv : gridPieceMap newp.type = v) :
    update_grid_with_current_piece g (some oldp) newp =
      specMovedGrid g (blocksOf oldp) (blocksOf newp) v := by
  subst hv
  unfold update_grid_with_current_piece
  refine grid_ext _ _ ?_ ?_ ?_
  · rw [length_placeBlocks, length_placeBlocks, length_specMovedGrid]
  · intro i hi
    rw [rowlen_placeBlocks, rowlen_placeBlocks,
      row_specMovedGrid _ _ _ _ i (by
        rwa [length_specMovedGrid] at hi)]
    simp
  · intro i j hi hj
    have hi' : i < g.length := by rwa [length_specMovedGrid] at hi
    have hj' : j < (g.getD i []).length := by
      have := row_specMovedGrid g (blocksOf oldp) (blocksOf newp)
        (gridPieceMap newp.type) i hi'
      rw [this] at hj
      simpa using hj
    rw [getCellN_specMovedGrid _ _ _ _ _ _ hi' hj',
      getCellN_placeBlocks, getCellN_placeBlocks,
      length_placeBlocks, rowlen_placeBlocks]
    by_cases hnew : ((j : Int), (i : Int)) ∈ blocksOf newp
    · rw [if_pos ⟨hnew, hi', hj'⟩, if_pos hnew]
    · rw [if_neg (by tauto), if_neg hnew]
      by_cases hold : ((j : Int), (i : Int)) ∈ blocksOf oldp
      · rw [if_pos ⟨hold, hi', hj'⟩, if_pos hold]
      · rw [if_neg (by tauto), if_neg hold]

lemma cell_values_wf (g : Grid) (hw : GridWF g) (i j : Nat)
    (hi : i < g.length) (hj : j < (g.getD i []).length) :
    getCellN g i j ≤ 7 ∨ (11 ≤ getCellN g i j ∧ getCellN g i j ≤ 17) := by
  have hrow : g.getD i [] ∈ g := by
    rw [List.getD_eq_getElem _ _ hi]
    exact List.getElem_mem hi
  have hval : getCellN g i j ∈ g.getD i [] := by
    unfold getCellN
    rw [List.getD_eq_getElem _ _ hj]
    exact List.getElem_mem hj
  exact (hw.2 _ hrow).2 _ hval

/-- Under a well-formed grid, the target-cell test of
`_check_movement_possible` ("not a locked value 1-7, or one of the piece's
own blocks") coincides with the claim's "empty, ghost-only, or one of the
piece's own blocks", blockwise across the whole legality check. -/
lemma checkBody_eq_spec (g : Grid) (hw : GridWF g)
    (blocks : List (Int × Int)) (d : Int × Int) :
    (blocks.all fun b =>
      decide (0 ≤ b.1 + d.1) && decide (b.1 + d.1 < 10) &&
        decide (0 ≤ b.2 + d.2) && decide (b.2 + d.2 < 22) &&
        (!(decide (1 ≤ getCell g (b.2 + d.2) (b.1 + d.1)) &&
            decide (getCell g (b.2 + d.2) (b.1 + d.1) ≤ 7)) ||
          decide ((b.1 + d.1, b.2 + d.2) ∈ blocks))) =
      specCanMove g blocks d := by
  unfold specCanMove
  congr 1
  funext b
  rw [Bool.eq_iff_iff]
  simp only [Bool.and_eq_true, Bool.or_eq_true, Bool.not_eq_true',
    Bool.and_eq_false_iff, decide_eq_true_eq, decide_eq_false_iff_not]
  by_cases hin : 0 ≤ b.1 + d.1 ∧ b.1 + d.1 < 10 ∧ 0 ≤ b.2 + d.2 ∧
      b.2 + d.2 < 22
  · obtain ⟨h1, h2, h3, h4⟩ := hin
    have hv := cell_values_wf g hw (b.2 + d.2).toNat (b.1 + d.1).toNat
      (by rw [hw.1]; omega)
      (by
        rw [(hw.2 _ (by
          rw [List.getD_eq_getElem _ _ (by rw [hw.1]; omega)]
          exact List.getElem_mem (by rw [hw.1]; omega))).1]
        omega)
    have hveq : getCell g (b.2 + d.2) (b.1 + d.1) =
        getCellN g (b.2 + d.2).toNat (b.1 + d.1).toNat := rfl
    rw [hveq] at *
    constructor
    · rintro ⟨hb, h | h⟩
      · refine ⟨hb, ?_⟩
        left
        omega
      · exact ⟨hb, Or.inr h⟩
    · rintro ⟨hb, h | h⟩
      · refine ⟨hb, ?_⟩
        left
        omega
      · exact ⟨hb, Or.inr h⟩
  · constructor
    · rintro ⟨hb, _⟩
      exact absurd ⟨hb.1.1.1, hb.1.1.2, hb.1.2, hb.2⟩ hin
    · rintro ⟨hb, _⟩
      exact absurd ⟨hb.1.1.1, hb.1.1.2, hb.1.2, hb.2⟩ hin

lemma check_some (g : Grid) (p : Piece) (d : PyStr) (dl : Int × Int)
    (hdl : movementDelta d = some dl) (hw : GridWF g) :
    check_movement_possible g p d =
      some (specCanMove g (blocksOf p) dl) := by
  unfold check_movement_possible
  rw [hdl]
  simp only [Option.map_some']
  congr 1
  exact checkBody_eq_spec g hw (blocksOf p) dl

lemma translate_ne (p : Piece) (cd rd : Int) (h : ¬(cd = 0 ∧ rd = 0)) :
    ¬ p = translatePiece p cd rd := by
  intro he
  have h1 := congrArg (fun q => q.block1.1) he
  have h2 := congrArg (fun q => q.block1.2) he
  simp only [translatePiece] at h1 h2
  omega

lemma translatePiece_type (p : Piece) (cd rd : Int) :
    (translatePiece p cd rd).type = p.type := rfl

lemma move_eq_spec (e : Engine) (d : PyStr) (dl : Int × Int)
    (hw : GridWF e.grid)
    (hdl : movementDelta d = some dl)
    (hpy : pyIn d ['L', 'R', 'D'] = true)
    (hcd : (if d = ['L'] then (-1 : Int)
      else if d = ['R'] then 1 else 0) = dl.1)
    (hrd : (if d = ['D'] then (-1 : Int) else 0) = dl.2)
    (hne : ¬(dl.1 = 0 ∧ dl.2 = 0)) :
    move_current_piece e d =
      some (if specCanMove e.grid (blocksOf e.current_piece) dl
        then specMovedEngine e dl.1 dl.2 else e) := by
  have hcheck := check_some e.grid e.current_piece d dl hdl hw
  unfold move_current_piece
  simp only [hpy, if_pos, hcheck, hcd, hrd]
  cases hb : specCanMove e.grid (blocksOf e.current_piece) dl with
  | false => simp
  | true =>
    simp only [if_neg (translate_ne e.current_piece dl.1 dl.2 hne)]
    have hupd := update_grid_eq_specMovedGrid e.grid e.current_piece
      (translatePiece e.current_piece dl.1 dl.2)
      (rfl : gridPieceMap (translatePiece e.current_piece dl.1 dl.2).type
        = gridPieceMap e.current_piece.type)
    rw [hupd]
    rfl

/-- C2: for the three documented directions, the movement check of
`_check_movement_possible` returns exactly the claim's legality predicate
(every translated block in bounds and on an empty, ghost-only or own
cell), and `move_current_piece` maps a passing check to the translated
piece with the footprint rewritten (old cells emptied, new cells set to
the type value, everything else byte-for-byte unchanged) and a failing
check to the unchanged engine; the piece always keeps exactly 4 blocks. -/
theorem C2_move_check_and_update (e : Engine) (d : PyStr)
    (hd : d = ['D'] ∨ d = ['L'] ∨ d = ['R'])
    (hw : GridWF e.grid) (hp : PieceInGrid e.current_piece) :
    check_movement_possible e.grid e.current_piece d =
      some (specCanMove e.grid (blocksOf e.current_piece) (specDelta d)) ∧
    move_current_piece e d =
      some (if specCanMove e.grid (blocksOf e.current_piece) (specDelta d)
        then specMovedEngine e (specDelta d).1 (specDelta d).2 else e) ∧
    (blocksOf (specMovedEngine e (specDelta d).1
      (specDelta d).2).current_piece).length = 4 := by
  rcases hd with hd | hd | hd <;> subst hd
  · exact ⟨check_some _ _ _ _ rfl hw,
      move_eq_spec e ['D'] (0, -1) hw rfl (by decide) (by decide) (by decide)
        (by decide), rfl⟩
  · exact ⟨check_some _ _ _ _ rfl hw,
      move_eq_spec e ['L'] (-1, 0) hw rfl (by decide) (by decide) (by decide)
        (by decide), rfl⟩
  · exact ⟨check_some _ _ _ _ rfl hw,
      move_eq_spec e ['R'] (1, 0) hw rfl (by decide) (by decide) (by decide)
        (by decide), rfl⟩

/-- C2 witness: the spawn-T engine moving down (the check passes and the
move rewrites the footprint). -/
theorem C2_move_witness :
    check_movement_possible engineT.grid engineT.current_piece ['D'] =
      some (specCanMove engineT.grid (blocksOf engineT.current_piece)
        (specDelta ['D'])) ∧
    move_current_piece engineT ['D'] =
      some (if specCanMove engineT.grid (blocksOf engineT.current_piece)
          (specDelta ['D'])
        then specMovedEngine engineT (specDelta ['D']).1 (specDelta ['D']).2
        else engineT) ∧
    (blocksOf (specMovedEngine engineT (specDelta ['D']).1
      (specDelta ['D']).2).current_piece).length = 4 :=
  C2_move_check_and_update engineT ['D'] (Or.inl rfl) (by decide) (by decide)

end LineClear
